import Mathlib

/-!
Verification of the ownership-scoped teams/players data model of the
kpl-backend repository.

The embedding models the PostgreSQL store as an explicit `DB` state and each
repository operation (`Team.*`, `Player.*` from the model classes) and each
controller (`createTeam`, `updatePlayer`, ... from the controller modules) as
a pure function on that state.  SQL details that the properties depend on are
embedded faithfully:
  - every query's `WHERE ... user_id = $n` filter,
  - the `LEFT JOIN` in `Player.findAllByUserId` / `Player.search` versus the
    inner `JOIN` in `Player.findById`,
  - the three-key `ORDER BY` (global-first, team name ascending nulls first,
    player name ascending),
  - the schema's `FOREIGN KEY (team_id) REFERENCES teams(id) ON DELETE SET
    NULL` (deleting a team nulls the referencing players; inserting or
    updating a dangling team id is a store error),
  - PostgreSQL `ILIKE` semantics for `%pattern%` including the `%`/`_`
    wildcards and the backslash escape,
  - JavaScript truthiness coercions (`value || null`, `if (!value)`).

Text is modelled as `List Char` (named `Str`) so that every definition
evaluates inside the kernel; `String` literals enter via `.data`.
Timestamp columns are modelled by an explicit `now` argument to the mutating
operations; `created_at` and the selected-column projections that no property
inspects (for example `team_logo` in joined player rows) are omitted.
The `users` table is represented only by the numeric user ids that the
authentication middleware attaches to each request.
-/

abbrev Str := List Char

/-- JavaScript `String.prototype.trim` on the character-list model. -/
def isWsChar (c : Char) : Bool := c == ' ' || c == '\t' || c == '\n' || c == '\r'

def trimStr (s : Str) : Str := ((s.dropWhile isWsChar).reverse.dropWhile isWsChar).reverse

/-- PostgreSQL `lower` restricted to ASCII, as used by `ILIKE`. -/
def lowerStr (s : Str) : Str := s.map Char.toLower

/-- JavaScript truthiness of an optional string: `undefined` and `""` are falsy. -/
def strTruthy : Option Str → Bool
  | none => false
  | some s => !s.isEmpty

/-- JavaScript truthiness of an optional number: `undefined` and `0` are falsy. -/
def intTruthy : Option Int → Bool
  | none => false
  | some n => decide (n ≠ 0)

def natTruthy : Option Nat → Bool
  | none => false
  | some n => decide (n ≠ 0)

/-- The `value || null` coercion applied to a numeric field. -/
def orNullNat (x : Option Nat) : Option Nat := if natTruthy x then x else none

def orNullInt (x : Option Int) : Option Int := if intTruthy x then x else none

/-- A row of the `teams` table (schema in the database initializer). -/
structure TeamRec where
  id : Nat
  team_name : Str
  team_logo : Str
  team_color : Str
  description : Str
  user_id : Nat
  updated_at : Nat
deriving DecidableEq, Repr

/-- A row of the `players` table; `team_id` is nullable (global player). -/
structure PlayerRec where
  id : Nat
  player_name : Str
  position : Option Str
  jersey_number : Option Int
  team_id : Option Nat
  user_id : Nat
  updated_at : Nat
deriving DecidableEq, Repr

/-- The store: both tables plus the `SERIAL` id counters. -/
structure DB where
  teams : List TeamRec
  players : List PlayerRec
  nextTeamId : Nat
  nextPlayerId : Nat
deriving DecidableEq, Repr

/-- Primary-key uniqueness, which PostgreSQL guarantees for `SERIAL PRIMARY KEY`. -/
def DB.WF (db : DB) : Prop :=
  (db.teams.map TeamRec.id).Nodup ∧ (db.players.map PlayerRec.id).Nodup

instance (db : DB) : Decidable db.WF :=
  inferInstanceAs (Decidable (_ ∧ _))

/-- `FOREIGN KEY (team_id) REFERENCES teams(id)`: a non-null team id must exist. -/
def fkTeamOk (db : DB) : Option Nat → Bool
  | none => true
  | some tid => db.teams.any (fun t => t.id == tid)

/-- The row resolved by `LEFT JOIN teams t ON p.team_id = t.id`. -/
def teamOf (db : DB) (p : PlayerRec) : Option TeamRec :=
  match p.team_id with
  | none => none
  | some tid => db.teams.find? (fun t => t.id == tid)

/-- A player row joined with optional team columns, as selected by
`Player.findAllByUserId`, `Player.findById` and `Player.search`. -/
structure PlayerRow where
  id : Nat
  player_name : Str
  position : Option Str
  jersey_number : Option Int
  team_id : Option Nat
  team_name : Option Str
  team_color : Option Str
deriving DecidableEq, Repr

def leftJoinRow (db : DB) (p : PlayerRec) : PlayerRow :=
  { id := p.id
    player_name := p.player_name
    position := p.position
    jersey_number := p.jersey_number
    team_id := p.team_id
    team_name := (teamOf db p).map TeamRec.team_name
    team_color := (teamOf db p).map TeamRec.team_color }

/-! ### Orderings used by `ORDER BY` clauses -/

def chLt (a b : Char) : Bool := decide (a < b)

/-- Strict lexicographic comparison of text, the order PostgreSQL uses for
`ORDER BY name ASC` (byte-wise collation). -/
def strLtB : Str → Str → Bool
  | [], [] => false
  | [], _ :: _ => true
  | _ :: _, [] => false
  | a :: as, b :: bs => chLt a b || (a == b && strLtB as bs)

def strLeB (a b : Str) : Bool := strLtB a b || a == b

/-- `ASC NULLS FIRST` on a nullable text column. -/
def optStrLtB : Option Str → Option Str → Bool
  | none, none => false
  | none, some _ => true
  | some _, none => false
  | some a, some b => strLtB a b

/-- The `ORDER BY CASE WHEN p.team_id IS NULL THEN 0 ELSE 1 END,
t.team_name ASC NULLS FIRST, p.player_name ASC` comparison. -/
def rowLe (a b : PlayerRow) : Bool :=
  let ga : Nat := if a.team_id.isNone then 0 else 1
  let gb : Nat := if b.team_id.isNone then 0 else 1
  decide (ga < gb) ||
    (ga == gb && (optStrLtB a.team_name b.team_name ||
      (a.team_name == b.team_name && strLeB a.player_name b.player_name)))

def rowRel (a b : PlayerRow) : Prop := rowLe a b = true

instance : DecidableRel rowRel := fun _ _ => inferInstanceAs (Decidable (_ = true))

def pnameRel (a b : PlayerRec) : Prop := strLeB a.player_name b.player_name = true

instance : DecidableRel pnameRel := fun _ _ => inferInstanceAs (Decidable (_ = true))

def tnameRel (a b : TeamRec) : Prop := strLeB a.team_name b.team_name = true

instance : DecidableRel tnameRel := fun _ _ => inferInstanceAs (Decidable (_ = true))

/-! ### PostgreSQL `ILIKE` -/

/-- PostgreSQL `LIKE` matching: `%` matches any sequence (the rest of the
pattern must match some suffix of the text), `_` matches any single
character, backslash escapes the following pattern character.  First argument
is the pattern, second the candidate text. -/
def likeMatch : Str → Str → Bool
  | [], hay => hay.isEmpty
  | '%' :: ps, hay => hay.tails.any (fun s => likeMatch ps s)
  | '_' :: ps, hay =>
    (match hay with
     | [] => false
     | _ :: hs => likeMatch ps hs)
  | '\\' :: ps, hay =>
    (match ps, hay with
     | pc :: ps2, hc :: hs => pc == hc && likeMatch ps2 hs
     | _, _ => false)
  | pc :: ps, hay =>
    (match hay with
     | [] => false
     | hc :: hs => pc == hc && likeMatch ps hs)

/-- `ILIKE`: case-insensitive `LIKE`. -/
def ilike (hay pat : Str) : Bool := likeMatch (lowerStr pat) (lowerStr hay)

/-- The `'%' + searchQuery + '%'` pattern interpolated by `Player.search`. -/
def likePattern (q : Str) : Str := '%' :: (q ++ ['%'])

/-! ### Team model (`src/models/Team.js`) -/

/-- `INSERT INTO teams ... RETURNING *`. -/
def Team.create (teamName teamLogo teamColor description : Str) (userId now : Nat)
    (db : DB) : TeamRec × DB :=
  let t : TeamRec :=
    { id := db.nextTeamId, team_name := teamName, team_logo := teamLogo,
      team_color := teamColor, description := description, user_id := userId,
      updated_at := now }
  (t, { db with teams := db.teams ++ [t], nextTeamId := db.nextTeamId + 1 })

/-- `SELECT ... FROM teams WHERE id = $1 AND user_id = $2`. -/
def Team.findById (id userId : Nat) (db : DB) : Option TeamRec :=
  db.teams.find? (fun t => t.id == id && t.user_id == userId)

/-- `SELECT ... FROM teams WHERE user_id = $1 ORDER BY team_name ASC`. -/
def Team.findAllByUserId (userId : Nat) (db : DB) : List TeamRec :=
  List.insertionSort tnameRel (db.teams.filter (fun t => t.user_id == userId))

/-- `UPDATE teams SET ... , updated_at = CURRENT_TIMESTAMP
WHERE id = $5 AND user_id = $6`; returns `rowCount > 0`. -/
def Team.update (id : Nat) (teamName teamLogo teamColor description : Str)
    (userId now : Nat) (db : DB) : Bool × DB :=
  if db.teams.any (fun t => t.id == id && t.user_id == userId) then
    (true, { db with teams := db.teams.map (fun t =>
      if t.id == id && t.user_id == userId then
        { t with
          team_name := teamName
          team_logo := teamLogo
          team_color := teamColor
          description := description
          updated_at := now }
      else t) })
  else (false, db)

/-- `DELETE FROM teams WHERE id = $1 AND user_id = $2`; the schema's
`ON DELETE SET NULL` action nulls `team_id` on every player that referenced
the deleted team.  Returns `rowCount > 0`. -/
def Team.delete (id userId : Nat) (db : DB) : Bool × DB :=
  if db.teams.any (fun t => t.id == id && t.user_id == userId) then
    (true, { db with
      teams := db.teams.filter (fun t => !(t.id == id && t.user_id == userId)),
      players := db.players.map (fun p =>
        if p.team_id == some id then { p with team_id := none } else p) })
  else (false, db)

/-! ### Player model (`src/models/Player.js`) -/

/-- `INSERT INTO players (..., team_id, user_id) VALUES (..., $4, $5)
RETURNING *` with the model's own `teamId || null` coercion; the `team_id`
foreign key makes an insert with a dangling team id a store error (`none`). -/
def Player.create (playerName : Str) (position : Option Str)
    (jerseyNumber : Option Int) (teamId : Option Nat) (userId now : Nat)
    (db : DB) : Option (PlayerRec × DB) :=
  let tid := orNullNat teamId
  if fkTeamOk db tid then
    let p : PlayerRec :=
      { id := db.nextPlayerId, player_name := playerName, position := position,
        jersey_number := jerseyNumber, team_id := tid, user_id := userId,
        updated_at := now }
    some (p, { db with players := db.players ++ [p], nextPlayerId := db.nextPlayerId + 1 })
  else none

/-- `SELECT ... FROM players p LEFT JOIN teams t ON p.team_id = t.id
WHERE p.user_id = $1 ORDER BY CASE WHEN p.team_id IS NULL THEN 0 ELSE 1 END,
t.team_name ASC NULLS FIRST, p.player_name ASC`. -/
def Player.findAllByUserId (userId : Nat) (db : DB) : List PlayerRow :=
  List.insertionSort rowRel
    ((db.players.filter (fun p => p.user_id == userId)).map (leftJoinRow db))

/-- `SELECT ... FROM players WHERE user_id = $1 AND team_id IS NULL
ORDER BY player_name ASC`. -/
def Player.findGlobalPlayers (userId : Nat) (db : DB) : List PlayerRec :=
  List.insertionSort pnameRel
    (db.players.filter (fun p => p.user_id == userId && p.team_id.isNone))

/-- `SELECT ... FROM players p JOIN teams t ON p.team_id = t.id
WHERE p.id = $1 AND p.user_id = $2` — an inner join: a player row only
results when the team association resolves. -/
def Player.findById (id userId : Nat) (db : DB) : Option PlayerRow :=
  (db.players.find? (fun p => p.id == id && p.user_id == userId)).bind (fun p =>
    (teamOf db p).map (fun t =>
      { id := p.id, player_name := p.player_name, position := p.position,
        jersey_number := p.jersey_number, team_id := p.team_id,
        team_name := some t.team_name, team_color := some t.team_color }))

/-- `UPDATE players SET ..., team_id = $4, updated_at = CURRENT_TIMESTAMP
WHERE id = $5 AND user_id = $6` with the model's `teamId || null` coercion;
a dangling non-null team id is a foreign-key error (`none`), otherwise
returns `rowCount > 0`. -/
def Player.update (id : Nat) (playerName : Str) (position : Option Str)
    (jerseyNumber : Option Int) (teamId : Option Nat) (userId now : Nat)
    (db : DB) : Option (Bool × DB) :=
  let tid := orNullNat teamId
  if db.players.any (fun p => p.id == id && p.user_id == userId) then
    if fkTeamOk db tid then
      some (true, { db with players := db.players.map (fun p =>
        if p.id == id && p.user_id == userId then
          { p with
            player_name := playerName
            position := position
            jersey_number := jerseyNumber
            team_id := tid
            updated_at := now }
        else p) })
    else none
  else some (false, db)

/-- `UPDATE players SET team_id = $1, updated_at = CURRENT_TIMESTAMP
WHERE id = $2 AND user_id = $3`; the team id is only checked for existence
by the foreign key, never for its owner. -/
def Player.assignToTeam (playerId teamId userId now : Nat) (db : DB) :
    Option (Bool × DB) :=
  if db.players.any (fun p => p.id == playerId && p.user_id == userId) then
    if db.teams.any (fun t => t.id == teamId) then
      some (true, { db with players := db.players.map (fun p =>
        if p.id == playerId && p.user_id == userId then
          { p with team_id := some teamId, updated_at := now }
        else p) })
    else none
  else some (false, db)

/-- `SELECT ... FROM players p LEFT JOIN teams t ON p.team_id = t.id
WHERE p.user_id = $1 AND (p.player_name ILIKE $2 OR t.team_name ILIKE $2)`
with `$2 = '%' + searchQuery + '%'`, ordered like `findAllByUserId`.
A null joined team name fails the `ILIKE` (SQL three-valued logic). -/
def Player.search (searchQuery : Str) (userId : Nat) (db : DB) : List PlayerRow :=
  let pat := likePattern searchQuery
  List.insertionSort rowRel
    (((db.players.filter (fun p => p.user_id == userId)).map (leftJoinRow db)).filter
      (fun r => ilike r.player_name pat ||
        (match r.team_name with
         | some tn => ilike tn pat
         | none => false)))

/-! ### Controllers -/

/-- The JSON responses a controller can produce. -/
inductive ApiRes (α : Type) where
  | badRequest (msg : String)
  | notFound (msg : String)
  | serverError
  | ok (data : α)
deriving DecidableEq, Repr

def ApiRes.isBadRequest {α : Type} : ApiRes α → Bool
  | .badRequest _ => true
  | _ => false

def ApiRes.dataOf {α : Type} : ApiRes α → Option α
  | .ok d => some d
  | _ => none

/-- Request body of the team endpoints; `none` models an absent JSON field. -/
structure TeamBody where
  team_name : Option Str
  team_logo : Option Str
  team_color : Option Str
  description : Option Str
deriving DecidableEq, Repr

/-- Request body of the player endpoints. -/
structure PlayerBody where
  player_name : Option Str
  position : Option Str
  jersey_number : Option Int
  team_id : Option Nat
deriving DecidableEq, Repr

/-- `createTeam` controller: requires a truthy name, trims it, substitutes
the defaults `'⚽'` and `'#0ea5e9'` for falsy logo/color and `''` for a falsy
description, and rejects a name that is empty after trimming. -/
def createTeam (body : TeamBody) (uid now : Nat) (db : DB) : ApiRes TeamRec × DB :=
  if !strTruthy body.team_name then (.badRequest "Team name is required.", db)
  else
    let cleanTeamName := trimStr (body.team_name.getD [])
    let cleanDescription := if strTruthy body.description then trimStr (body.description.getD []) else []
    let cleanTeamLogo := if strTruthy body.team_logo then trimStr (body.team_logo.getD []) else "⚽".data
    let cleanTeamColor := if strTruthy body.team_color then body.team_color.getD [] else "#0ea5e9".data
    if cleanTeamName.length == 0 then (.badRequest "Team name cannot be empty.", db)
    else
      let r := Team.create cleanTeamName cleanTeamLogo cleanTeamColor cleanDescription uid now db
      (.ok r.1, r.2)

/-- `updateTeam` controller: same validation as `createTeam`, then
`Team.update` and a re-fetch of the updated row. -/
def updateTeam (id : Nat) (body : TeamBody) (uid now : Nat) (db : DB) :
    ApiRes (Option TeamRec) × DB :=
  if !strTruthy body.team_name then (.badRequest "Team name is required.", db)
  else
    let cleanTeamName := trimStr (body.team_name.getD [])
    let cleanDescription := if strTruthy body.description then trimStr (body.description.getD []) else []
    let cleanTeamLogo := if strTruthy body.team_logo then trimStr (body.team_logo.getD []) else "⚽".data
    let cleanTeamColor := if strTruthy body.team_color then body.team_color.getD [] else "#0ea5e9".data
    if cleanTeamName.length == 0 then (.badRequest "Team name cannot be empty.", db)
    else
      let r := Team.update id cleanTeamName cleanTeamLogo cleanTeamColor cleanDescription uid now db
      if r.1 then (.ok (Team.findById id uid r.2), r.2)
      else (.notFound "Team not found or update failed.", r.2)

/-- `createPlayer` controller: requires a truthy name, coerces falsy jersey
number and team id to null, rejects an empty trimmed name. -/
def createPlayer (body : PlayerBody) (uid now : Nat) (db : DB) :
    ApiRes PlayerRec × DB :=
  if !strTruthy body.player_name then (.badRequest "Player name is required.", db)
  else
    let cleanPlayerName := trimStr (body.player_name.getD [])
    let cleanPosition := if strTruthy body.position then some (trimStr (body.position.getD [])) else none
    let cleanJerseyNumber := orNullInt body.jersey_number
    if cleanPlayerName.length == 0 then (.badRequest "Player name cannot be empty.", db)
    else
      match Player.create cleanPlayerName cleanPosition cleanJerseyNumber
        (orNullNat body.team_id) uid now db with
      | none => (.serverError, db)
      | some (p, db2) => (.ok p, db2)

/-- `updatePlayer` controller: validation as in `createPlayer`, then
`Player.update` and a re-fetch through the inner-join `Player.findById`. -/
def updatePlayer (id : Nat) (body : PlayerBody) (uid now : Nat) (db : DB) :
    ApiRes (Option PlayerRow) × DB :=
  if !strTruthy body.player_name then (.badRequest "Player name is required.", db)
  else
    let cleanPlayerName := trimStr (body.player_name.getD [])
    let cleanPosition := if strTruthy body.position then some (trimStr (body.position.getD [])) else none
    let cleanJerseyNumber := orNullInt body.jersey_number
    if cleanPlayerName.length == 0 then (.badRequest "Player name cannot be empty.", db)
    else
      match Player.update id cleanPlayerName cleanPosition cleanJerseyNumber
        (orNullNat body.team_id) uid now db with
      | none => (.serverError, db)
      | some (false, db2) => (.notFound "Player not found or update failed.", db2)
      | some (true, db2) => (.ok (Player.findById id uid db2), db2)

/-- `assignPlayerToTeam` controller: requires a truthy team id, then
`Player.assignToTeam` and a re-fetch through `Player.findById`. -/
def assignPlayerToTeam (playerId : Nat) (team_id : Option Nat) (uid now : Nat)
    (db : DB) : ApiRes (Option PlayerRow) × DB :=
  if !natTruthy team_id then (.badRequest "Team ID is required.", db)
  else
    match Player.assignToTeam playerId (team_id.getD 0) uid now db with
    | none => (.serverError, db)
    | some (false, db2) => (.notFound "Player not found or assignment failed.", db2)
    | some (true, db2) => (.ok (Player.findById playerId uid db2), db2)

/-- `searchPlayers` controller: rejects a missing or whitespace-only query
before any store access, otherwise runs `Player.search` on the trimmed query. -/
def searchPlayers (q : Option Str) (uid : Nat) (db : DB) : ApiRes (List PlayerRow) :=
  if !strTruthy q || (trimStr (q.getD [])).length == 0 then
    .badRequest "Search query is required."
  else .ok (Player.search (trimStr (q.getD [])) uid db)

/-! ### Spec-side comparison definitions -/

def startsWithCh : Str → Str → Bool
  | [], _ => true
  | _ :: _, [] => false
  | a :: as, b :: bs => a == b && startsWithCh as bs

def containsSub (needle : Str) : Str → Bool
  | [] => needle.isEmpty
  | c :: hs => startsWithCh needle (c :: hs) || containsSub needle hs

/-- Modelled from the spec: `search` is described as a "case-insensitive
substring match against player name OR team name".  This definition follows
the spec's words (substring containment after lowercasing) for comparison
with the code's `ILIKE` pattern matching. -/
def specContainsCI (hay q : Str) : Bool := containsSub (lowerStr q) (lowerStr hay)

/-- The spec's description of the `listByOwner`/`search` ordering: global
players sort before assigned players, globals among themselves by player
name, assigned players by team name ascending (nulls first defensively) with
ties broken by player name. -/
def specRowOrder (a b : PlayerRow) : Prop :=
  (a.team_id = none ∧ b.team_id ≠ none) ∨
  (a.team_id = none ∧ b.team_id = none ∧ strLeB a.player_name b.player_name = true) ∨
  (a.team_id ≠ none ∧ b.team_id ≠ none ∧
    (optStrLtB a.team_name b.team_name = true ∨
     (a.team_name = b.team_name ∧ strLeB a.player_name b.player_name = true)))

/-! ### Concrete example states -/

def exTeamLions : TeamRec :=
  { id := 1, team_name := "Lions".data, team_logo := "⚽".data,
    team_color := "#0ea5e9".data, description := [], user_id := 1, updated_at := 0 }

def exPlayerZed : PlayerRec :=
  { id := 1, player_name := "Zed".data, position := none, jersey_number := none,
    team_id := none, user_id := 1, updated_at := 0 }

def exPlayerAmy : PlayerRec :=
  { id := 2, player_name := "Amy".data, position := none, jersey_number := none,
    team_id := some 1, user_id := 1, updated_at := 0 }

def exPlayerBob : PlayerRec :=
  { id := 3, player_name := "Bob".data, position := none, jersey_number := none,
    team_id := none, user_id := 1, updated_at := 0 }

def exDB : DB :=
  { teams := [exTeamLions], players := [exPlayerZed, exPlayerAmy, exPlayerBob],
    nextTeamId := 2, nextPlayerId := 4 }

/-- A state with a team owned by user 2 and a global player owned by user 1. -/
def exTeamTigers : TeamRec :=
  { id := 10, team_name := "Tigers".data, team_logo := "⚽".data,
    team_color := "#f00".data, description := [], user_id := 2, updated_at := 0 }

def exPlayerPat : PlayerRec :=
  { id := 5, player_name := "Pat".data, position := none, jersey_number := none,
    team_id := none, user_id := 1, updated_at := 0 }

def exDBx : DB :=
  { teams := [exTeamTigers], players := [exPlayerPat], nextTeamId := 11, nextPlayerId := 6 }

/-- A state with a single global player named "abc" owned by user 1. -/
def exDBq : DB :=
  { teams := [],
    players := [{ id := 1, player_name := "abc".data, position := none,
                  jersey_number := none, team_id := none, user_id := 1, updated_at := 0 }],
    nextTeamId := 1, nextPlayerId := 2 }

/-- Adjacent-pair sortedness check for a boolean comparison. -/
def chainLe {α : Type} (le : α → α → Bool) : List α → Bool
  | [] => true
  | [_] => true
  | a :: b :: t => le a b && chainLe le (b :: t)

/-- The `search` WHERE clause expressed per stored player: the player's name
or its joined team's name matches the pattern (a player without resolvable
team only matches on its own name). -/
def searchHit (db : DB) (pat : Str) (p : PlayerRec) : Bool :=
  ilike p.player_name pat ||
    (match teamOf db p with
     | some t => ilike t.team_name pat
     | none => false)

/-! ### Order-theoretic facts about the comparators -/

theorem strLtB_trans : ∀ (a b c : Str), strLtB a b = true → strLtB b c = true →
    strLtB a c = true := by
  intro a
  induction a with
  | nil =>
    intro b c h1 h2
    cases b with
    | nil => simp [strLtB] at h1
    | cons y ys =>
      cases c with
      | nil => simp [strLtB] at h2
      | cons z zs => simp [strLtB]
  | cons x xs ih =>
    intro b c h1 h2
    cases b with
    | nil => simp [strLtB] at h1
    | cons y ys =>
      cases c with
      | nil => simp [strLtB] at h2
      | cons z zs =>
        simp only [strLtB, chLt, Bool.or_eq_true, Bool.and_eq_true,
          decide_eq_true_eq, beq_iff_eq] at h1 h2 ⊢
        rcases h1 with h1 | ⟨hxy, h1⟩
        · rcases h2 with h2 | ⟨hyz, h2⟩
          · exact Or.inl (lt_trans h1 h2)
          · exact Or.inl (hyz ▸ h1)
        · rcases h2 with h2 | ⟨hyz, h2⟩
          · exact Or.inl (hxy ▸ h2)
          · exact Or.inr ⟨hxy.trans hyz, ih ys zs h1 h2⟩

theorem strLtB_conn : ∀ (a b : Str), strLtB a b = false → strLtB b a = false →
    a = b := by
  intro a
  induction a with
  | nil =>
    intro b h1 _
    cases b with
    | nil => rfl
    | cons y ys => simp [strLtB] at h1
  | cons x xs ih =>
    intro b h1 h2
    cases b with
    | nil => simp [strLtB] at h2
    | cons y ys =>
      simp only [strLtB, chLt, Bool.or_eq_false_iff, Bool.and_eq_false_iff,
        decide_eq_false_iff_not] at h1 h2
      have hxy : x = y :=
        le_antisymm (not_lt.mp h2.1) (not_lt.mp h1.1)
      subst hxy
      rcases h1.2 with h1' | h1'
      · simp at h1'
      · rcases h2.2 with h2' | h2'
        · simp at h2'
        · exact congrArg (x :: ·) (ih ys h1' h2')

theorem strLeB_total (a b : Str) : (strLeB a b || strLeB b a) = true := by
  by_cases h1 : strLtB a b = true
  · simp [strLeB, h1]
  · by_cases h2 : strLtB b a = true
    · simp [strLeB, h2]
    · have : a = b := strLtB_conn a b (Bool.not_eq_true _ ▸ h1) (Bool.not_eq_true _ ▸ h2)
      subst this
      simp [strLeB]

theorem strLeB_trans (a b c : Str) (h1 : strLeB a b = true) (h2 : strLeB b c = true) :
    strLeB a c = true := by
  simp only [strLeB, Bool.or_eq_true, beq_iff_eq] at h1 h2 ⊢
  rcases h1 with h1 | rfl
  · rcases h2 with h2 | rfl
    · exact Or.inl (strLtB_trans a b c h1 h2)
    · exact Or.inl h1
  · exact h2

theorem optStrLtB_trans (a b c : Option Str) (h1 : optStrLtB a b = true)
    (h2 : optStrLtB b c = true) : optStrLtB a c = true := by
  cases a <;> cases b <;> cases c <;> simp [optStrLtB] at h1 h2 ⊢
  exact strLtB_trans _ _ _ h1 h2

theorem optStrLtB_conn (a b : Option Str) (h1 : optStrLtB a b = false)
    (h2 : optStrLtB b a = false) : a = b := by
  cases a <;> cases b <;> simp [optStrLtB] at h1 h2 ⊢
  exact strLtB_conn _ _ h1 h2

theorem rowLe_total (a b : PlayerRow) : (rowLe a b || rowLe b a) = true := by
  simp only [rowLe, Bool.or_eq_true, Bool.and_eq_true, decide_eq_true_eq, beq_iff_eq]
  set ga : Nat := if a.team_id.isNone then 0 else 1 with hga
  set gb : Nat := if b.team_id.isNone then 0 else 1 with hgb
  rcases Nat.lt_trichotomy ga gb with h | h | h
  · exact Or.inl (Or.inl h)
  · by_cases ht : optStrLtB a.team_name b.team_name = true
    · exact Or.inl (Or.inr ⟨h, Or.inl ht⟩)
    · by_cases ht2 : optStrLtB b.team_name a.team_name = true
      · exact Or.inr (Or.inr ⟨h.symm, Or.inl ht2⟩)
      · have hte : a.team_name = b.team_name :=
          optStrLtB_conn _ _ (Bool.not_eq_true _ ▸ ht) (Bool.not_eq_true _ ▸ ht2)
        have := strLeB_total a.player_name b.player_name
        rcases Bool.or_eq_true_iff.mp this with hp | hp
        · exact Or.inl (Or.inr ⟨h, Or.inr ⟨hte, hp⟩⟩)
        · exact Or.inr (Or.inr ⟨h.symm, Or.inr ⟨hte.symm, hp⟩⟩)
  · exact Or.inr (Or.inl h)

theorem rowLe_trans (a b c : PlayerRow) (h1 : rowLe a b = true)
    (h2 : rowLe b c = true) : rowLe a c = true := by
  simp only [rowLe, Bool.or_eq_true, Bool.and_eq_true, decide_eq_true_eq,
    beq_iff_eq] at h1 h2 ⊢
  rcases h1 with h1 | ⟨hg1, h1⟩
  · rcases h2 with h2 | ⟨hg2, _⟩
    · exact Or.inl (Nat.lt_trans h1 h2)
    · exact Or.inl (hg2 ▸ h1)
  · rcases h2 with h2 | ⟨hg2, h2⟩
    · exact Or.inl (hg1 ▸ h2)
    · refine Or.inr ⟨hg1.trans hg2, ?_⟩
      rcases h1 with h1 | ⟨hte1, h1⟩
      · rcases h2 with h2 | ⟨hte2, _⟩
        · exact Or.inl (optStrLtB_trans _ _ _ h1 h2)
        · exact Or.inl (hte2 ▸ h1)
      · rcases h2 with h2 | ⟨hte2, h2⟩
        · exact Or.inl (hte1 ▸ h2)
        · exact Or.inr ⟨hte1.trans hte2, strLeB_trans _ _ _ h1 h2⟩

instance : IsTotal PlayerRow rowRel :=
  ⟨fun a b => by
    have := rowLe_total a b
    rcases Bool.or_eq_true_iff.mp this with h | h
    · exact Or.inl h
    · exact Or.inr h⟩

instance : IsTrans PlayerRow rowRel :=
  ⟨fun a b c h1 h2 => rowLe_trans a b c h1 h2⟩

instance : IsTotal PlayerRec pnameRel :=
  ⟨fun a b => by
    have := strLeB_total a.player_name b.player_name
    rcases Bool.or_eq_true_iff.mp this with h | h
    · exact Or.inl h
    · exact Or.inr h⟩

instance : IsTrans PlayerRec pnameRel :=
  ⟨fun _ _ _ h1 h2 => strLeB_trans _ _ _ h1 h2⟩

instance : IsTotal TeamRec tnameRel :=
  ⟨fun a b => by
    have := strLeB_total a.team_name b.team_name
    rcases Bool.or_eq_true_iff.mp this with h | h
    · exact Or.inl h
    · exact Or.inr h⟩

instance : IsTrans TeamRec tnameRel :=
  ⟨fun _ _ _ h1 h2 => strLeB_trans _ _ _ h1 h2⟩

/-! ### Generic helper lemmas -/

theorem chainLe_of_pairwise {α : Type} (le : α → α → Bool) :
    ∀ l : List α, List.Pairwise (fun a b => le a b = true) l → chainLe le l = true
  | [], _ => rfl
  | [_], _ => rfl
  | a :: b :: t, h => by
    rcases List.pairwise_cons.mp h with ⟨hhead, htail⟩
    have hrec := chainLe_of_pairwise le (b :: t) htail
    simp only [chainLe, Bool.and_eq_true]
    exact ⟨hhead b (by simp), hrec⟩

theorem filter_map_comm {α β : Type} (f : α → β) (q : β → Bool) (l : List α) :
    (l.map f).filter q = (l.filter (fun a => q (f a))).map f := by
  induction l with
  | nil => rfl
  | cons a t ih =>
    by_cases h : q (f a) = true
    · simp [h, ih]
    · simp only [Bool.not_eq_true] at h
      simp [h, ih]

theorem wf_teams_eq {db : DB} (hwf : db.WF) {t u : TeamRec}
    (ht : t ∈ db.teams) (hu : u ∈ db.teams) (hid : t.id = u.id) : t = u :=
  List.inj_on_of_nodup_map hwf.1 ht hu hid

theorem wf_players_eq {db : DB} (hwf : db.WF) {p q : PlayerRec}
    (hp : p ∈ db.players) (hq : q ∈ db.players) (hid : p.id = q.id) : p = q :=
  List.inj_on_of_nodup_map hwf.2 hp hq hid

theorem strTruthy_of_trim {s : Str} (h : trimStr s ≠ []) :
    strTruthy (some s) = true := by
  cases s with
  | nil => exact absurd rfl h
  | cons a t => rfl

theorem trim_length_bne {s : Str} (h : trimStr s ≠ []) :
    ((trimStr s).length == 0) = false := by
  cases hs : trimStr s with
  | nil => exact absurd hs h
  | cons a t => rfl

theorem leftJoinRow_global {db : DB} {p : PlayerRec} (h : p.team_id = none) :
    (leftJoinRow db p).team_name = none := by
  simp [leftJoinRow, teamOf, h]

/-! ### Claim C1 -/

/-- C1 counterexample: the claim that the application layer enforces
same-owner team references is false.  In `exDBx` the only team (id 10) is
owned by user 2 and the only player (id 5) by user 1, yet
`Player.assignToTeam 5 10 1` succeeds and leaves user 1's player referencing
user 2's team — a cross-user reference introduced by a repository
operation. -/
theorem C1_counterexample :
    (Player.assignToTeam 5 10 1 7 exDBx).map
      (fun r => (r.1, r.2.players.map (fun p => (p.user_id, p.team_id)))) =
      some (true, [(1, some 10)]) ∧
    exDBx.teams.map (fun t => (t.id, t.user_id)) = [(10, 2)] := by decide

/-- C1 (amended): `Player.assignToTeam` checks only that the caller owns the
player and that a team with the given id exists — the team's owner is never
consulted, so the operation succeeds (and sets the reference) even when the
team belongs to a different user; only referential existence is enforced, by
the store's foreign key, which rejects a nonexistent team id. -/
theorem C1_assign_checks_existence_not_owner
    (db : DB) (pid tid tid2 uid now : Nat)
    (hp : db.players.any (fun p => p.id == pid && p.user_id == uid) = true)
    (ht : db.teams.any (fun t => t.id == tid) = true)
    (ht2 : db.teams.any (fun t => t.id == tid2) = false) :
    (Player.assignToTeam pid tid uid now db).map
      (fun r => (r.1, r.2.players.all
        (fun p => !(p.id == pid && p.user_id == uid) || p.team_id == some tid))) =
      some (true, true) ∧
    Player.assignToTeam pid tid2 uid now db = none := by
  constructor
  · simp only [Player.assignToTeam, hp, ht, if_true, Option.map_some']
    refine congrArg some (congrArg (Prod.mk true) ?_)
    rw [List.all_map, List.all_eq_true]
    intro p _
    by_cases hc : (p.id == pid && p.user_id == uid) = true
    · simp [Function.comp, hc]
    · simp only [Bool.not_eq_true] at hc
      simp [Function.comp, hc]
  · simp [Player.assignToTeam, hp, ht2]

/-- C1 witness: the amended theorem applied to the concrete cross-owner
state `exDBx`. -/
theorem C1_assign_checks_existence_not_owner_witness :
    (Player.assignToTeam 5 10 1 7 exDBx).map
      (fun r => (r.1, r.2.players.all
        (fun p => !(p.id == 5 && p.user_id == 1) || p.team_id == some 10))) =
      some (true, true) ∧
    Player.assignToTeam 5 99 1 7 exDBx = none :=
  C1_assign_checks_existence_not_owner exDBx 5 10 99 1 7 (by decide) (by decide)
    (by decide)

/-! ### Claim C2 -/

/-- C2: deleting a team does not delete its players.  If `Team.delete tid uid`
succeeds, every player that referenced the team still exists (the player list
keeps its length) with its team id set to null — it has become a global
player. -/
theorem C2_team_delete_globalizes_players
    (db : DB) (tid uid : Nat) (p : PlayerRec)
    (hp : p ∈ db.players) (hpt : p.team_id = some tid) (_howner : p.user_id = uid)
    (hdel : (Team.delete tid uid db).1 = true) :
    { p with team_id := none } ∈ (Team.delete tid uid db).2.players ∧
    (Team.delete tid uid db).2.players.length = db.players.length := by
  have hany : db.teams.any (fun t => t.id == tid && t.user_id == uid) = true := by
    by_contra hne
    simp only [Bool.not_eq_true] at hne
    simp [Team.delete, hne] at hdel
  refine ⟨?_, ?_⟩
  · have : ({ p with team_id := none } : PlayerRec) =
        (fun q => if q.team_id == some tid then { q with team_id := none } else q) p := by
      simp [hpt]
    rw [this]
    simp only [Team.delete, hany, if_true]
    exact List.mem_map_of_mem _ hp
  · simp [Team.delete, hany]

/-- C2 witness: deleting team "Lions" (id 1, user 1) in `exDB` keeps Amy
(who referenced it) as a player and nulls her team id. -/
theorem C2_team_delete_globalizes_players_witness :
    { exPlayerAmy with team_id := none } ∈ (Team.delete 1 1 exDB).2.players ∧
    (Team.delete 1 1 exDB).2.players.length = exDB.players.length :=
  C2_team_delete_globalizes_players exDB 1 1 exPlayerAmy (by decide) (by decide)
    (by decide) (by decide)

/-! ### Claim C3 -/

/-- C3: cross-owner access is indistinguishable from absence.  For a team
and a player owned by user `a` and any other user `b`, `findById` under `b`
returns `none`, exactly as it does for an id (`fid`) that exists for no user
at all; the listing reads under `b` never surface the records, and writes
under `b` (team delete, player team assignment) report the same "zero rows"
outcome as for a missing record, leaving the store unchanged. -/
theorem C3_cross_owner_indistinguishable
    (db : DB) (a b fid now : Nat) (t : TeamRec) (p : PlayerRec)
    (hwf : db.WF)
    (ht : t ∈ db.teams) (hta : t.user_id = a)
    (hp : p ∈ db.players) (hpa : p.user_id = a)
    (hab : b ≠ a)
    (hfT : db.teams.all (fun u => u.id != fid) = true)
    (hfP : db.players.all (fun q => q.id != fid) = true) :
    Team.findById t.id b db = none ∧
    Team.findById fid b db = none ∧
    Player.findById p.id b db = none ∧
    Player.findById fid b db = none ∧
    (Player.findAllByUserId b db).all (fun r => r.id != p.id) = true ∧
    (Team.findAllByUserId b db).all (fun u => u.id != t.id) = true ∧
    Team.delete t.id b db = (false, db) ∧
    Player.assignToTeam p.id t.id b now db = some (false, db) := by
  have hTnone : db.teams.find? (fun u => u.id == t.id && u.user_id == b) = none := by
    rw [List.find?_eq_none]
    intro u hu hc
    simp only [Bool.and_eq_true, beq_iff_eq] at hc
    have := wf_teams_eq hwf hu ht hc.1
    exact hab (hc.2 ▸ this ▸ hta)
  have hPnone : db.players.find? (fun q => q.id == p.id && q.user_id == b) = none := by
    rw [List.find?_eq_none]
    intro q hq hc
    simp only [Bool.and_eq_true, beq_iff_eq] at hc
    have := wf_players_eq hwf hq hp hc.1
    exact hab (hc.2 ▸ this ▸ hpa)
  have hTfid : db.teams.find? (fun u => u.id == fid && u.user_id == b) = none := by
    rw [List.find?_eq_none]
    intro u hu hc
    simp only [Bool.and_eq_true, beq_iff_eq] at hc
    have := List.all_eq_true.mp hfT u hu
    simp only [bne_iff_ne] at this
    exact this hc.1
  have hPfid : db.players.find? (fun q => q.id == fid && q.user_id == b) = none := by
    rw [List.find?_eq_none]
    intro q hq hc
    simp only [Bool.and_eq_true, beq_iff_eq] at hc
    have := List.all_eq_true.mp hfP q hq
    simp only [bne_iff_ne] at this
    exact this hc.1
  have hTanyF : db.teams.any (fun u => u.id == t.id && u.user_id == b) = false := by
    cases hca : db.teams.any (fun u => u.id == t.id && u.user_id == b) with
    | false => rfl
    | true =>
      rcases List.any_eq_true.mp hca with ⟨u, hu, hc⟩
      simp only [Bool.and_eq_true, beq_iff_eq] at hc
      have := wf_teams_eq hwf hu ht hc.1
      exact absurd (hc.2 ▸ this ▸ hta) hab
  have hPanyF : db.players.any (fun q => q.id == p.id && q.user_id == b) = false := by
    cases hca : db.players.any (fun q => q.id == p.id && q.user_id == b) with
    | false => rfl
    | true =>
      rcases List.any_eq_true.mp hca with ⟨q, hq, hc⟩
      simp only [Bool.and_eq_true, beq_iff_eq] at hc
      have := wf_players_eq hwf hq hp hc.1
      exact absurd (hc.2 ▸ this ▸ hpa) hab
  refine ⟨hTnone, hTfid, ?_, ?_, ?_, ?_, ?_, ?_⟩
  · simp [Player.findById, hPnone]
  · simp [Player.findById, hPfid]
  · rw [List.all_eq_true]
    intro r hr
    have hr2 := (List.perm_insertionSort rowRel _).mem_iff.mp hr
    rcases List.mem_map.mp hr2 with ⟨q, hq, hqr⟩
    rcases List.mem_filter.mp hq with ⟨hqmem, hqb⟩
    simp only [beq_iff_eq] at hqb
    have hid : r.id = q.id := by rw [← hqr]; rfl
    simp only [bne_iff_ne]
    intro hrp
    have hqp : q = p := wf_players_eq hwf hqmem hp (hid ▸ hrp)
    have hpb : p.user_id = b := hqp ▸ hqb
    exact hab (hpb ▸ hpa)
  · rw [List.all_eq_true]
    intro u hu
    have hu2 := (List.perm_insertionSort tnameRel _).mem_iff.mp hu
    rcases List.mem_filter.mp hu2 with ⟨humem, hub⟩
    simp only [beq_iff_eq] at hub
    simp only [bne_iff_ne]
    intro hut
    have : u = t := wf_teams_eq hwf humem ht hut
    exact hab (hub ▸ this ▸ hta)
  · simp [Team.delete, hTanyF]
  · simp [Player.assignToTeam, hPanyF]

/-- C3 witness: user 2 cannot observe user 1's team "Lions" (id 1) or player
"Zed" (id 1) in `exDB`, and id 99 exists for nobody. -/
theorem C3_cross_owner_indistinguishable_witness :
    Team.findById exTeamLions.id 2 exDB = none ∧
    Team.findById 99 2 exDB = none ∧
    Player.findById exPlayerZed.id 2 exDB = none ∧
    Player.findById 99 2 exDB = none ∧
    (Player.findAllByUserId 2 exDB).all (fun r => r.id != exPlayerZed.id) = true ∧
    (Team.findAllByUserId 2 exDB).all (fun u => u.id != exTeamLions.id) = true ∧
    Team.delete exTeamLions.id 2 exDB = (false, exDB) ∧
    Player.assignToTeam exPlayerZed.id exTeamLions.id 2 0 exDB = some (false, exDB) :=
  C3_cross_owner_indistinguishable exDB 1 2 99 0 exTeamLions exPlayerZed
    (by decide) (by decide) (by decide) (by decide) (by decide) (by decide)
    (by decide) (by decide)

/-! ### Claim C4 -/

/-- C4: the single-player lookup is an inner join.  A global player `p`
(team id null) of owner `u` is reported not-found by `Player.findById` even
though `Player.findGlobalPlayers` returns it, while a player `q` assigned to
an existing team `t` of the same owner is returned with the team's name and
color. -/
theorem C4_global_lookup_asymmetry
    (db : DB) (u : Nat) (p q : PlayerRec) (t : TeamRec)
    (hwf : db.WF)
    (hp : p ∈ db.players) (hpu : p.user_id = u) (hpg : p.team_id = none)
    (hq : q ∈ db.players) (hqu : q.user_id = u) (hqt : q.team_id = some t.id)
    (htm : t ∈ db.teams) :
    Player.findById p.id u db = none ∧
    p ∈ Player.findGlobalPlayers u db ∧
    Player.findById q.id u db =
      some { id := q.id, player_name := q.player_name, position := q.position,
             jersey_number := q.jersey_number, team_id := q.team_id,
             team_name := some t.team_name, team_color := some t.team_color } := by
  refine ⟨?_, ?_, ?_⟩
  · cases hf : db.players.find? (fun r => r.id == p.id && r.user_id == u) with
    | none => simp [Player.findById, hf]
    | some r =>
      have hc := List.find?_some hf
      simp only [Bool.and_eq_true, beq_iff_eq] at hc
      have hrp : r = p := wf_players_eq hwf (List.mem_of_find?_eq_some hf) hp hc.1
      subst hrp
      simp [Player.findById, hf, teamOf, hpg]
  · refine (List.perm_insertionSort pnameRel _).mem_iff.mpr ?_
    refine List.mem_filter.mpr ⟨hp, ?_⟩
    simp [hpu, hpg]
  · cases hf : db.players.find? (fun r => r.id == q.id && r.user_id == u) with
    | none =>
      have := List.find?_eq_none.mp hf q hq
      simp [hqu] at this
    | some r =>
      have hc := List.find?_some hf
      simp only [Bool.and_eq_true, beq_iff_eq] at hc
      have hrq : r = q := wf_players_eq hwf (List.mem_of_find?_eq_some hf) hq hc.1
      subst hrq
      cases hft : db.teams.find? (fun v => v.id == t.id) with
      | none =>
        have := List.find?_eq_none.mp hft t htm
        simp at this
      | some v =>
        have hvc := List.find?_some hft
        simp only [beq_iff_eq] at hvc
        have hvt : v = t := wf_teams_eq hwf (List.mem_of_find?_eq_some hft) htm hvc
        subst hvt
        simp [Player.findById, hf, teamOf, hqt, hft]

/-- C4 witness: in `exDB`, global player Zed (id 1) is invisible to
`findById` but listed by `findGlobalPlayers`, while Amy (id 2, team "Lions")
is returned with team info. -/
theorem C4_global_lookup_asymmetry_witness :
    Player.findById exPlayerZed.id 1 exDB = none ∧
    exPlayerZed ∈ Player.findGlobalPlayers 1 exDB ∧
    Player.findById exPlayerAmy.id 1 exDB =
      some { id := exPlayerAmy.id, player_name := exPlayerAmy.player_name,
             position := exPlayerAmy.position,
             jersey_number := exPlayerAmy.jersey_number,
             team_id := exPlayerAmy.team_id,
             team_name := some exTeamLions.team_name,
             team_color := some exTeamLions.team_color } :=
  C4_global_lookup_asymmetry exDB 1 exPlayerZed exPlayerAmy exTeamLions
    (by decide) (by decide) (by decide) (by decide) (by decide) (by decide)
    (by decide) (by decide)

/-! ### Claim C5 -/

theorem rowRel_imp_spec (a b : PlayerRow)
    (ha : a.team_id = none → a.team_name = none)
    (hb : b.team_id = none → b.team_name = none) :
    rowRel a b → specRowOrder a b := by
  intro h
  simp only [rowRel, rowLe, Bool.or_eq_true, Bool.and_eq_true, decide_eq_true_eq,
    beq_iff_eq] at h
  cases hat : a.team_id with
  | none =>
    cases hbt : b.team_id with
    | none =>
      have ha' := ha hat
      have hb' := hb hbt
      simp only [hat, hbt, Option.isNone_none, if_true, ha', hb', optStrLtB] at h
      rcases h with h | ⟨_, h⟩
      · omega
      · rcases h with h | ⟨_, h⟩
        · simp at h
        · exact Or.inr (Or.inl ⟨hat, hbt, h⟩)
    | some y => exact Or.inl ⟨hat, by simp [hbt]⟩
  | some x =>
    cases hbt : b.team_id with
    | none =>
      simp only [hat, hbt, Option.isNone_none, Option.isNone_some] at h
      rcases h with h | ⟨hg, _⟩
      · simp at h
      · simp at hg
    | some y =>
      simp only [hat, hbt, Option.isNone_some] at h
      rcases h with h | ⟨_, h⟩
      · simp at h
      · exact Or.inr (Or.inr ⟨by simp [hat], by simp [hbt], h⟩)

/-- C5: `Player.findAllByUserId` returns exactly the owner's players
left-joined with team info (a permutation of the filtered join), pairwise
ordered by the spec's rule — global players before assigned ones, globals by
player name, assigned players by team name then player name — and on the
spec's example state the order is [Bob, Zed, Amy]. -/
theorem C5_listByOwner_ordering :
    (∀ (db : DB) (u : Nat),
      (Player.findAllByUserId u db).Perm
        ((db.players.filter (fun p => p.user_id == u)).map (leftJoinRow db)) ∧
      List.Pairwise specRowOrder (Player.findAllByUserId u db)) ∧
    (Player.findAllByUserId 1 exDB).map PlayerRow.player_name =
      ["Bob".data, "Zed".data, "Amy".data] := by
  refine ⟨fun db u => ⟨List.perm_insertionSort _ _, ?_⟩, by decide⟩
  have hs : List.Pairwise rowRel (Player.findAllByUserId u db) :=
    List.sorted_insertionSort rowRel _
  refine hs.imp_of_mem ?_
  intro a b hma hmb hr
  have hglobal : ∀ c : PlayerRow, c ∈ Player.findAllByUserId u db →
      c.team_id = none → c.team_name = none := by
    intro c hmc htc
    have hmc2 := (List.perm_insertionSort rowRel _).mem_iff.mp hmc
    rcases List.mem_map.mp hmc2 with ⟨pc, _, hpc⟩
    rw [← hpc] at htc ⊢
    exact leftJoinRow_global htc
  exact rowRel_imp_spec a b (hglobal a hma) (hglobal b hmb) hr

/-! ### Claim C6 -/

theorem search_eq (q : Str) (u : Nat) (db : DB) :
    Player.search q u db =
      List.insertionSort rowRel
        ((db.players.filter (fun p => p.user_id == u &&
          searchHit db (likePattern q) p)).map (leftJoinRow db)) := by
  simp only [Player.search]
  congr 1
  rw [filter_map_comm, List.filter_filter]
  congr 1
  refine List.filter_congr ?_
  intro p _
  cases hto : teamOf db p with
  | none => simp [searchHit, leftJoinRow, hto, Bool.and_comm]
  | some t => simp [searchHit, leftJoinRow, hto, Bool.and_comm]

/-- C6 counterexample: the claim's "case-insensitive substring" reading is
false.  In `exDBq` (one global player named "abc" owned by user 1) the query
"a_c" returns that player — the `_` acts as a `LIKE` wildcard — even though
no player of user 1 has "a_c" as a case-insensitive substring of its name or
of a joined team name. -/
theorem C6_counterexample :
    (searchPlayers (some "a_c".data) 1 exDBq).dataOf.map
      (List.map PlayerRow.player_name) = some ["abc".data] ∧
    exDBq.players.filter (fun p => p.user_id == 1 &&
      (specContainsCI p.player_name "a_c".data ||
        (match (leftJoinRow exDBq p).team_name with
         | some tn => specContainsCI tn "a_c".data
         | none => false))) = [] := by decide

/-- C6 (amended): for every owner, `search` returns exactly the owner's
players whose player name or joined team name matches the trimmed query as a
case-insensitive SQL LIKE pattern wrapped in `%` (so `_` and `%` inside the
query act as wildcards; for queries without LIKE metacharacters this is
substring containment), ordered global-first then by team name then by
player name; a whitespace-only query is rejected as a validation error
before any store query, and a non-empty query reaches the store trimmed.
The spec's example still holds: searching "lions" returns the player on team
"Lions" whose own name does not contain the query. -/
theorem C6_search_like_semantics
    (db : DB) (u : Nat) (qe qo : Str)
    (h1 : trimStr qe = [])
    (h2 : trimStr qo ≠ []) :
    searchPlayers (some qe) u db = ApiRes.badRequest "Search query is required." ∧
    (searchPlayers (some qo) u db).dataOf = some (Player.search (trimStr qo) u db) ∧
    (Player.search (trimStr qo) u db).Perm
      ((db.players.filter (fun p => p.user_id == u &&
        searchHit db (likePattern (trimStr qo)) p)).map (leftJoinRow db)) ∧
    chainLe rowLe (Player.search (trimStr qo) u db) = true ∧
    (Player.search "lions".data 1 exDB).map PlayerRow.player_name = ["Amy".data] := by
  refine ⟨?_, ?_, ?_, ?_, by decide⟩
  · simp [searchPlayers, h1]
  · simp [searchPlayers, strTruthy_of_trim h2, trim_length_bne h2, ApiRes.dataOf]
  · rw [search_eq]
    exact List.perm_insertionSort _ _
  · exact chainLe_of_pairwise rowLe _ (List.sorted_insertionSort rowRel _)

/-- C6 witness: the amended theorem applied at `exDB` with the whitespace
query "   " and the query "lions". -/
theorem C6_search_like_semantics_witness :
    searchPlayers (some "   ".data) 1 exDB =
      ApiRes.badRequest "Search query is required." ∧
    (searchPlayers (some "lions".data) 1 exDB).dataOf =
      some (Player.search (trimStr "lions".data) 1 exDB) ∧
    (Player.search (trimStr "lions".data) 1 exDB).Perm
      ((exDB.players.filter (fun p => p.user_id == 1 &&
        searchHit exDB (likePattern (trimStr "lions".data)) p)).map (leftJoinRow exDB)) ∧
    chainLe rowLe (Player.search (trimStr "lions".data) 1 exDB) = true ∧
    (Player.search "lions".data 1 exDB).map PlayerRow.player_name = ["Amy".data] :=
  C6_search_like_semantics exDB 1 "   ".data "lions".data (by decide) (by decide)

/-! ### Claim C7 -/

/-- C7: `createTeam` rejects with a validation error (and leaves the store
untouched) every name that is empty after trimming — whether the raw name is
empty or whitespace — and for a valid name it substitutes the documented
defaults for falsy logo (`'⚽'`), color (`'#0ea5e9'`) and description (`''`)
in the created team. -/
theorem C7_team_create_validation_defaults
    (nameE nameOk : Str) (logoA colorA descA logo0 color0 desc0 : Option Str)
    (uid now : Nat) (db : DB)
    (hE : trimStr nameE = [])
    (hOk : trimStr nameOk ≠ [])
    (hlogo : strTruthy logo0 = false)
    (hcolor : strTruthy color0 = false)
    (hdesc : strTruthy desc0 = false) :
    ((createTeam ⟨some nameE, logoA, colorA, descA⟩ uid now db).1.isBadRequest = true ∧
     (createTeam ⟨some nameE, logoA, colorA, descA⟩ uid now db).2 = db) ∧
    (createTeam ⟨some nameOk, logo0, color0, desc0⟩ uid now db).1.dataOf.map
      (fun t => (t.team_name, t.team_logo, t.team_color, t.description)) =
      some (trimStr nameOk, "⚽".data, "#0ea5e9".data, []) := by
  constructor
  · by_cases hne : nameE = []
    · subst hne
      simp [createTeam, strTruthy, ApiRes.isBadRequest]
    · have ht : strTruthy (some nameE) = true := by
        cases nameE with
        | nil => exact absurd rfl hne
        | cons a s => rfl
      constructor
      · simp [createTeam, ht, hE, ApiRes.isBadRequest]
      · simp [createTeam, ht, hE]
  · simp [createTeam, strTruthy_of_trim hOk, trim_length_bne hOk, hlogo, hcolor,
      hdesc, Team.create, ApiRes.dataOf]

/-- C7 witness: a whitespace name is rejected without mutation, and a team
"Lions" created with falsy logo/color/description gets the defaults. -/
theorem C7_team_create_validation_defaults_witness :
    ((createTeam ⟨some "  ".data, some "L".data, none, none⟩ 1 3 exDB).1.isBadRequest = true ∧
     (createTeam ⟨some "  ".data, some "L".data, none, none⟩ 1 3 exDB).2 = exDB) ∧
    (createTeam ⟨some "Lions".data, none, some [], none⟩ 1 3 exDB).1.dataOf.map
      (fun t => (t.team_name, t.team_logo, t.team_color, t.description)) =
      some (trimStr "Lions".data, "⚽".data, "#0ea5e9".data, []) :=
  C7_team_create_validation_defaults "  ".data "Lions".data (some "L".data) none
    none none (some []) none 1 3 exDB (by decide) (by decide) (by decide)
    (by decide) (by decide)

/-! ### Claim C8 -/

/-- C8: a team or player update whose name is empty after trimming fails
with a validation error before any store statement runs: the returned state
is the unchanged input state, so no stored record (including its updated
timestamp) is mutated. -/
theorem C8_update_empty_name_no_mutation
    (tid pid : Nat) (tname pname : Str) (tb : TeamBody) (pb : PlayerBody)
    (uid now : Nat) (db : DB)
    (ht : trimStr tname = []) (hp : trimStr pname = []) :
    ((updateTeam tid { tb with team_name := some tname } uid now db).1.isBadRequest = true ∧
     (updateTeam tid { tb with team_name := some tname } uid now db).2 = db) ∧
    ((updatePlayer pid { pb with player_name := some pname } uid now db).1.isBadRequest = true ∧
     (updatePlayer pid { pb with player_name := some pname } uid now db).2 = db) := by
  constructor
  · by_cases hne : tname = []
    · subst hne
      simp [updateTeam, strTruthy, ApiRes.isBadRequest]
    · have htt : strTruthy (some tname) = true := by
        cases tname with
        | nil => exact absurd rfl hne
        | cons a s => rfl
      constructor
      · simp [updateTeam, htt, ht, ApiRes.isBadRequest]
      · simp [updateTeam, htt, ht]
  · by_cases hne : pname = []
    · subst hne
      simp [updatePlayer, strTruthy, ApiRes.isBadRequest]
    · have hpt : strTruthy (some pname) = true := by
        cases pname with
        | nil => exact absurd rfl hne
        | cons a s => rfl
      constructor
      · simp [updatePlayer, hpt, hp, ApiRes.isBadRequest]
      · simp [updatePlayer, hpt, hp]

/-- C8 witness: whitespace names are rejected for team 1 and player 2 of
`exDB` with no state change. -/
theorem C8_update_empty_name_no_mutation_witness :
    ((updateTeam 1 ⟨some " ".data, none, none, none⟩ 1 5 exDB).1.isBadRequest = true ∧
     (updateTeam 1 ⟨some " ".data, none, none, none⟩ 1 5 exDB).2 = exDB) ∧
    ((updatePlayer 2 ⟨some " ".data, none, none, none⟩ 1 5 exDB).1.isBadRequest = true ∧
     (updatePlayer 2 ⟨some " ".data, none, none, none⟩ 1 5 exDB).2 = exDB) :=
  C8_update_empty_name_no_mutation 1 2 " ".data " ".data
    ⟨none, none, none, none⟩ ⟨none, none, none, none⟩ 1 5 exDB
    (by decide) (by decide)

/-! ### Claim C9 -/

/-- C9: updating an existing owned player with a null team id succeeds and
the player really becomes global in the store, but the response's data is
null, because the post-update fetch goes through the inner-join
`Player.findById`, which cannot see global players. -/
theorem C9_update_to_global_null_data
    (db : DB) (p : PlayerRec) (pname : Str) (pos : Option Str) (jn : Option Int)
    (uid now : Nat)
    (hwf : db.WF) (hp : p ∈ db.players) (hpu : p.user_id = uid)
    (hname : trimStr pname ≠ []) :
    (updatePlayer p.id ⟨some pname, pos, jn, none⟩ uid now db).1 = ApiRes.ok none ∧
    ((updatePlayer p.id ⟨some pname, pos, jn, none⟩ uid now db).2.players.any
      (fun r => r.id == p.id && r.user_id == uid && r.team_id == (none : Option Nat) &&
        r.player_name == trimStr pname)) = true := by
  have hAny : db.players.any (fun r => r.id == p.id && r.user_id == uid) = true :=
    List.any_eq_true.mpr ⟨p, hp, by simp [hpu]⟩
  have hfind : ∀ (nm : Str) (ps : Option Str) (j : Option Int),
      Player.findById p.id uid
        { db with players := db.players.map (fun r =>
          if r.id == p.id && r.user_id == uid then
            { r with
              player_name := nm
              position := ps
              jersey_number := j
              team_id := none
              updated_at := now }
          else r) } = none := by
    intro nm ps j
    set f : PlayerRec → PlayerRec := fun r =>
      if r.id == p.id && r.user_id == uid then
        { r with
          player_name := nm
          position := ps
          jersey_number := j
          team_id := none
          updated_at := now }
      else r with hf
    have hfid : ∀ s, (f s).id = s.id ∧
        ((s.id == p.id && s.user_id == uid) = true → (f s).team_id = none) := by
      intro s
      rw [hf]
      dsimp only
      split
      · exact ⟨rfl, fun _ => rfl⟩
      · next hcf => exact ⟨rfl, fun hcc => absurd hcc hcf⟩
    cases hfq : (db.players.map f).find? (fun r => r.id == p.id && r.user_id == uid) with
    | none => simp [Player.findById, hfq]
    | some r =>
      have hmem := List.mem_of_find?_eq_some hfq
      have hcond := List.find?_some hfq
      simp only [Bool.and_eq_true, beq_iff_eq] at hcond
      rcases List.mem_map.mp hmem with ⟨q, hq, hqr⟩
      have hqid : q.id = p.id := by
        rw [← hcond.1, ← hqr]
        exact ((hfid q).1).symm
      have hqp : q = p := wf_players_eq hwf hq hp hqid
      have hteam : r.team_id = none := by
        rw [← hqr]
        refine (hfid q).2 ?_
        rw [hqp]
        simp [hpu]
      simp [Player.findById, hfq, teamOf, hteam]
  constructor
  · simp only [updatePlayer, strTruthy_of_trim hname, Bool.not_true,
      Bool.false_eq_true, if_false, Option.getD_some, trim_length_bne hname,
      Player.update, orNullNat, natTruthy, fkTeamOk, hAny, if_true]
    exact congrArg ApiRes.ok (hfind _ _ _)
  · simp only [updatePlayer, strTruthy_of_trim hname, Bool.not_true,
      Bool.false_eq_true, if_false, Option.getD_some, trim_length_bne hname,
      Player.update, orNullNat, natTruthy, fkTeamOk, hAny, if_true]
    refine List.any_eq_true.mpr ⟨_, List.mem_map_of_mem _ hp, ?_⟩
    have hcp : (p.id == p.id && p.user_id == uid) = true := by simp [hpu]
    simp [hcp, hpu]

/-- C9 witness: updating Amy (id 2) of `exDB` to a null team id reports
success with null data while the store shows her as global. -/
theorem C9_update_to_global_null_data_witness :
    (updatePlayer exPlayerAmy.id ⟨some "Amy".data, none, none, none⟩ 1 9 exDB).1 =
      ApiRes.ok none ∧
    ((updatePlayer exPlayerAmy.id ⟨some "Amy".data, none, none, none⟩ 1 9 exDB).2.players.any
      (fun r => r.id == exPlayerAmy.id && r.user_id == 1 &&
        r.team_id == (none : Option Nat) && r.player_name == trimStr "Amy".data)) = true :=
  C9_update_to_global_null_data exDB exPlayerAmy "Amy".data none none 1 9
    (by decide) (by decide) (by decide) (by decide)

/-! ### Claim C10 -/

/-- C10: in player create and player update the falsy integer 0 is coerced
to null — a player created with jersey number 0 and team id 0 is stored with
no jersey number and no team, and the same holds for an update of an
existing owned player. -/
theorem C10_falsy_zero_coercion
    (db : DB) (p : PlayerRec) (pname : Str) (pos : Option Str) (uid now : Nat)
    (hname : trimStr pname ≠ [])
    (hp : p ∈ db.players) (hpu : p.user_id = uid) :
    (createPlayer ⟨some pname, pos, some 0, some 0⟩ uid now db).1.dataOf.map
      (fun r => (r.jersey_number, r.team_id)) = some ((none : Option Int), (none : Option Nat)) ∧
    ((updatePlayer p.id ⟨some pname, pos, some 0, some 0⟩ uid now db).2.players.any
      (fun r => r.id == p.id && r.jersey_number == (none : Option Int) &&
        r.team_id == (none : Option Nat))) = true := by
  have hAny : db.players.any (fun r => r.id == p.id && r.user_id == uid) = true :=
    List.any_eq_true.mpr ⟨p, hp, by simp [hpu]⟩
  constructor
  · simp [createPlayer, strTruthy_of_trim hname, trim_length_bne hname,
      orNullInt, intTruthy, orNullNat, natTruthy, fkTeamOk, Player.create,
      ApiRes.dataOf]
  · simp only [updatePlayer, strTruthy_of_trim hname, Bool.not_true,
      Bool.false_eq_true, if_false, Option.getD_some, trim_length_bne hname,
      Player.update, orNullInt, intTruthy, orNullNat, natTruthy, fkTeamOk,
      hAny, if_true]
    refine List.any_eq_true.mpr ⟨_, List.mem_map_of_mem _ hp, ?_⟩
    have hcp : (p.id == p.id && p.user_id == uid) = true := by simp [hpu]
    simp [hcp, hpu]

/-- C10 witness: creating a player with jersey 0 and team 0, and updating
Amy (id 2) with jersey 0 and team 0, both store nulls. -/
theorem C10_falsy_zero_coercion_witness :
    (createPlayer ⟨some "Pat".data, none, some 0, some 0⟩ 1 4 exDB).1.dataOf.map
      (fun r => (r.jersey_number, r.team_id)) =
      some ((none : Option Int), (none : Option Nat)) ∧
    ((updatePlayer exPlayerAmy.id ⟨some "Pat".data, none, some 0, some 0⟩ 1 4 exDB).2.players.any
      (fun r => r.id == exPlayerAmy.id && r.jersey_number == (none : Option Int) &&
        r.team_id == (none : Option Nat))) = true :=
  C10_falsy_zero_coercion exDB exPlayerAmy "Pat".data none 1 4
    (by decide) (by decide) (by decide)

